import Mathlib

/-!
Verification development for the npmjs discovery pipeline slice of
construct-hub: the `Discovery` construct (backend/discovery/index.ts) and the
`NpmJsPackageCanary` construct, together with a model of the scanner handler
the `Discovery` construct configures.

Durations are embedded as a total number of minutes.  CDK property bags are
embedded as Lean structures; optional TypeScript properties become `Option`
fields.  TypeScript object-spread merging of `MetricOptions` is embedded
field-wise: a field written before `...opts` is a default that `opts` can
override (`Option.getD`), a field written after `...opts` is fixed.
-/

/-- A CDK `Duration`, measured in whole minutes. -/
structure Duration where
  totalMinutes : Nat
deriving DecidableEq, Repr

/-- `Duration.minutes(n)`. -/
def Duration.minutes (n : Nat) : Duration := ⟨n⟩

/-- `Duration.days(n)`. -/
def Duration.days (n : Nat) : Duration := ⟨n * 24 * 60⟩

/-- The `BlockPublicAccess` settings used by the aws-s3 module. -/
inductive BlockPublicAccess
  | BLOCK_ALL
  | BLOCK_ACLS
deriving DecidableEq, Repr

/-- One S3 lifecycle rule: an optional key-prefix scope and an optional
expiration duration. -/
structure LifecycleRule where
  keyPfx : Option String
  expiration : Option Duration
deriving DecidableEq, Repr

/-- The properties the `Discovery` constructor passes to `new Bucket`. -/
structure BucketProps where
  blockPublicAccess : Option BlockPublicAccess
  lifecycleRules : List LifecycleRule
deriving DecidableEq, Repr

/-- The properties the `Discovery` constructor passes to the scanner lambda
`Handler`. -/
structure HandlerProps where
  description : String
  memorySize : Nat
  reservedConcurrentExecutions : Option Nat
  timeout : Duration
deriving DecidableEq, Repr

/-- CloudWatch comparison operators used by the alarms. -/
inductive ComparisonOperator
  | GREATER_THAN_OR_EQUAL_TO_THRESHOLD
  | LESS_THAN_THRESHOLD
deriving DecidableEq, Repr

/-- The `createAlarm` properties together with the period of the metric the
alarm evaluates. -/
structure AlarmProps where
  metricPeriod : Duration
  comparisonOperator : ComparisonOperator
  evaluationPeriods : Nat
  threshold : Nat
deriving DecidableEq, Repr

/-- Whether an alarm fires on a single evaluation-period datapoint `v`. -/
def AlarmProps.firesOn (a : AlarmProps) (v : Nat) : Bool :=
  match a.comparisonOperator with
  | ComparisonOperator.GREATER_THAN_OR_EQUAL_TO_THRESHOLD => decide (a.threshold ≤ v)
  | ComparisonOperator.LESS_THAN_THRESHOLD => decide (v < a.threshold)

/-- Modelled from the spec: the staged-artifact key-prefix constant
(`S3KeyPrefix.STAGED_KEY_PREFIX` from `constants.lambda-shared`, whose source
file is not part of this slice); the spec describes staged artifacts living
under a dedicated staging key-prefix of the bucket. -/
def STAGED_KEY_PFX : String := "staged/"

/-- Modelled from the spec: the scanner metric namespace constant
(`METRIC_NAMESPACE` from `constants.lambda-shared`, not part of this slice). -/
def METRIC_NAMESPACE : String := "ConstructHub/Discovery"

/-- Modelled from the spec: the canary metric namespace constant
(`METRICS_NAMESPACE` from the canary `constants` module, not part of this
slice). -/
def METRICS_NAMESPACE : String := "ConstructHub/PackageCanary"

/-- `Discovery.timeout`: 15 minutes (index.ts line 53). -/
def discoveryTimeout : Duration := Duration.minutes 15

/-- The modelled inputs of the `Discovery` constructor that can vary between
instantiations (the monitoring handler and the queue are external
collaborators; only their identifiers matter here). -/
structure DiscoveryProps where
  queueUrl : String
  logRetention : Option Nat
deriving DecidableEq, Repr

/-- Everything the `Discovery` constructor configures that the claims are
about: the staging bucket, the scanner lambda, the schedule rule and the two
alarms. -/
structure DiscoveryResources where
  bucketProps : BucketProps
  handlerProps : HandlerProps
  scheduleRate : Duration
  alarmErrors : AlarmProps
  alarmNoInvocations : AlarmProps
deriving DecidableEq, Repr

/-- The `Discovery` constructor (index.ts lines 55-102), embedded as a
function from its varying inputs to the configured resources. -/
def discoveryConstruct (_props : DiscoveryProps) : DiscoveryResources :=
  { bucketProps :=
      { blockPublicAccess := some BlockPublicAccess.BLOCK_ALL
      , lifecycleRules :=
          [ { keyPfx := some STAGED_KEY_PFX
            , expiration := some (Duration.days 30) } ] }
  , handlerProps :=
      { description := "Periodically query npm.js index for new construct libraries"
      , memorySize := 10240
      , reservedConcurrentExecutions := some 1
      , timeout := discoveryTimeout }
  , scheduleRate := discoveryTimeout
  , alarmErrors :=
      { metricPeriod := Duration.minutes 15
      , comparisonOperator := ComparisonOperator.GREATER_THAN_OR_EQUAL_TO_THRESHOLD
      , evaluationPeriods := 1
      , threshold := 1 }
  , alarmNoInvocations :=
      { metricPeriod := Duration.minutes 15
      , comparisonOperator := ComparisonOperator.LESS_THAN_THRESHOLD
      , evaluationPeriods := 1
      , threshold := 1 } }

/-- The canary lambda timeout and the canary schedule rate configured by the
`NpmJsPackageCanary` constructor. -/
structure CanaryResources where
  handlerTimeout : Duration
  scheduleRate : Duration
deriving DecidableEq, Repr

/-- The modelled varying inputs of the `NpmJsPackageCanary` constructor. -/
structure CanaryProps where
  bucketName : String
  constructHubBaseUrl : String
  packageName : String
deriving DecidableEq, Repr

/-- The `NpmJsPackageCanary` constructor (part_000 lines 25-56), embedded as a
function from its varying inputs to the configured resources. -/
def canaryConstruct (_props : CanaryProps) : CanaryResources :=
  { handlerTimeout := Duration.minutes 1
  , scheduleRate := Duration.minutes 1 }

/-- Does an object key fall in the scope of a lifecycle rule?  A rule with no
prefix applies to the whole bucket; a rule with a prefix applies exactly to
the keys that start with it. -/
def LifecycleRule.appliesTo (r : LifecycleRule) (key : String) : Bool :=
  match r.keyPfx with
  | none => true
  | some p => p.isPrefixOf key

/-- The expiration the bucket configuration assigns to an object key: the
expiration of the first lifecycle rule in scope, if any. -/
def expirationFor (b : BucketProps) (key : String) : Option Duration :=
  match b.lifecycleRules.find? (fun r => r.appliesTo key) with
  | some r => r.expiration
  | none => none

/-- Lambda reserved concurrency semantics: an in-flight-execution count over
time respects a handler configuration when, if a reserved concurrency is set,
the count never exceeds it. -/
def RespectsReservedConcurrency (h : HandlerProps) (inflight : Nat → Nat) : Prop :=
  match h.reservedConcurrentExecutions with
  | some c => ∀ t, inflight t ≤ c
  | none => True

/-- CloudWatch statistics used by the metric accessors. -/
inductive Statistic
  | AVERAGE
  | SUM
  | MAXIMUM
deriving DecidableEq, Repr

/-- The `MetricOptions` bag a caller may pass to a metric accessor; every
field is optional. -/
structure MetricOptions where
  metricName : Option String := none
  nmspace : Option String := none
  period : Option Duration := none
  statistic : Option Statistic := none
deriving DecidableEq, Repr

/-- A fully resolved CloudWatch `Metric` as produced by a metric accessor. -/
structure CWMetric where
  metricName : String
  nmspace : String
  period : Duration
  statistic : Statistic
deriving DecidableEq, Repr

/-- Modelled from the spec: the scanner metric-name constants (`MetricName`
from `constants.lambda-shared`, not part of this slice); the spec lists the
scanner metrics by name. -/
def MetricName.BATCH_PROCESSING_TIME : String := "BatchProcessingTime"

/-- Modelled from the spec: scanner metric-name constant. -/
def MetricName.CHANGE_COUNT : String := "ChangeCount"

/-- Modelled from the spec: scanner metric-name constant. -/
def MetricName.PACKAGE_VERSION_AGE : String := "PackageVersionAge"

/-- Modelled from the spec: scanner metric-name constant. -/
def MetricName.PACKAGE_VERSION_COUNT : String := "PackageVersionCount"

/-- Modelled from the spec: scanner metric-name constant. -/
def MetricName.RELEVANT_PACKAGE_VERSIONS : String := "RelevantPackageVersions"

/-- Modelled from the spec: scanner metric-name constant. -/
def MetricName.REMAINING_TIME : String := "RemainingTime"

/-- Modelled from the spec: scanner metric-name constant. -/
def MetricName.STAGING_FAILURE_COUNT : String := "StagingFailureCount"

/-- Modelled from the spec: scanner metric-name constant. -/
def MetricName.STAGING_TIME : String := "StagingTime"

/-- Modelled from the spec: scanner metric-name constant. -/
def MetricName.UNPROCESSABLE_ENTITY : String := "UnprocessableEntity"

/-- Modelled from the spec: the canary metric-name constants (`MetricName`
from the canary `constants` module, not part of this slice). -/
def CanaryMetricName.DWELL_TIME : String := "DwellTime"

/-- Modelled from the spec: canary metric-name constant. -/
def CanaryMetricName.TIME_TO_CATALOG : String := "TimeToCatalog"

/-- Modelled from the spec: canary metric-name constant. -/
def CanaryMetricName.TRACKED_VERSION_COUNT : String := "TrackedVersionCount"

/-- Modelled from the spec: canary metric-name constant. -/
def CanaryMetricName.NPM_REPLICA_LAG : String := "EstimatedNpmReplicaLag"

/-- A `Discovery` metric accessor: `new Metric({ <defaults>, ...opts })` —
every default, `metricName` and `namespace` included, is overridden by a
field present in `opts`. -/
def discoveryMetric (name : String) (stat : Statistic) (opts : MetricOptions) : CWMetric :=
  { metricName := opts.metricName.getD name
  , nmspace := opts.nmspace.getD METRIC_NAMESPACE
  , period := opts.period.getD discoveryTimeout
  , statistic := opts.statistic.getD stat }

/-- `Discovery.metricBatchProcessingTime` (index.ts lines 107-115). -/
def Discovery.metricBatchProcessingTime (opts : MetricOptions) : CWMetric :=
  discoveryMetric MetricName.BATCH_PROCESSING_TIME Statistic.AVERAGE opts

/-- `Discovery.metricChangeCount`. -/
def Discovery.metricChangeCount (opts : MetricOptions) : CWMetric :=
  discoveryMetric MetricName.CHANGE_COUNT Statistic.SUM opts

/-- `Discovery.metricPackageVersionAge`. -/
def Discovery.metricPackageVersionAge (opts : MetricOptions) : CWMetric :=
  discoveryMetric MetricName.PACKAGE_VERSION_AGE Statistic.MAXIMUM opts

/-- `Discovery.metricPackageVersionCount`. -/
def Discovery.metricPackageVersionCount (opts : MetricOptions) : CWMetric :=
  discoveryMetric MetricName.PACKAGE_VERSION_COUNT Statistic.SUM opts

/-- `Discovery.metricRelevantPackageVersions`. -/
def Discovery.metricRelevantPackageVersions (opts : MetricOptions) : CWMetric :=
  discoveryMetric MetricName.RELEVANT_PACKAGE_VERSIONS Statistic.SUM opts

/-- `Discovery.metricRemainingTime`. -/
def Discovery.metricRemainingTime (opts : MetricOptions) : CWMetric :=
  discoveryMetric MetricName.REMAINING_TIME Statistic.AVERAGE opts

/-- `Discovery.metricStagingFailureCount`. -/
def Discovery.metricStagingFailureCount (opts : MetricOptions) : CWMetric :=
  discoveryMetric MetricName.STAGING_FAILURE_COUNT Statistic.SUM opts

/-- `Discovery.metricStagingTime`. -/
def Discovery.metricStagingTime (opts : MetricOptions) : CWMetric :=
  discoveryMetric MetricName.STAGING_TIME Statistic.AVERAGE opts

/-- `Discovery.metricUnprocessableEntity` (index.ts lines 213-221). -/
def Discovery.metricUnprocessableEntity (opts : MetricOptions) : CWMetric :=
  discoveryMetric MetricName.UNPROCESSABLE_ENTITY Statistic.SUM opts

/-- An `NpmJsPackageCanary` metric accessor:
`new Metric({ period, statistic, ...opts, metricName, namespace })` — the
period and statistic defaults are overridable by `opts`, while `metricName`
and `namespace`, written after the spread, are fixed. -/
def canaryMetric (name : String) (stat : Statistic) (opts : MetricOptions) : CWMetric :=
  { metricName := name
  , nmspace := METRICS_NAMESPACE
  , period := opts.period.getD (Duration.minutes 1)
  , statistic := opts.statistic.getD stat }

/-- `NpmJsPackageCanary.metricDwellTime` (part_000 lines 58-66). -/
def NpmJsPackageCanary.metricDwellTime (opts : MetricOptions) : CWMetric :=
  canaryMetric CanaryMetricName.DWELL_TIME Statistic.MAXIMUM opts

/-- `NpmJsPackageCanary.metricTimeToCatalog`. -/
def NpmJsPackageCanary.metricTimeToCatalog (opts : MetricOptions) : CWMetric :=
  canaryMetric CanaryMetricName.TIME_TO_CATALOG Statistic.MAXIMUM opts

/-- `NpmJsPackageCanary.metricTrackedVersionCount`. -/
def NpmJsPackageCanary.metricTrackedVersionCount (opts : MetricOptions) : CWMetric :=
  canaryMetric CanaryMetricName.TRACKED_VERSION_COUNT Statistic.MAXIMUM opts

/-- `NpmJsPackageCanary.metricEstimatedNpmReplicaLag`. -/
def NpmJsPackageCanary.metricEstimatedNpmReplicaLag (opts : MetricOptions) : CWMetric :=
  canaryMetric CanaryMetricName.NPM_REPLICA_LAG Statistic.MAXIMUM opts

/-- Modelled from the spec: a `ChangeRecord` of the registry change feed — a
monotonically increasing `sequenceId` (here `seq`), a package name and a
version.  The opaque payload is represented only through the classifier
applied to the record. -/
structure ChangeRecord where
  seq : Nat
  name : String
  version : String
deriving DecidableEq, Repr

/-- Modelled from the spec: the Relevance Filter classifies a change record
as irrelevant (skip), malformed (count and skip), or a candidate package
version to stage. -/
inductive Classification
  | Irrelevant
  | Malformed
  | Candidate
deriving DecidableEq, Repr

/-- Modelled from the spec: the observable events of a scanner run — a batch
fetch initiated with a given remaining time at a given feed position, a
marker persisted to the Checkpoint Store, a staging attempt for a record, a
notification for a record, and a malformed record counted and skipped. -/
inductive ScanEvent
  | fetched (rem : Nat) (pos : Nat)
  | saved (marker : Nat)
  | stagedRec (r : ChangeRecord)
  | notifiedRec (r : ChangeRecord)
  | unprocRec (r : ChangeRecord)
deriving DecidableEq, Repr

/-- Modelled from the spec: the Feed Reader — `read(position, maxBatch)`
returns the next slice of change records with `sequenceId > position`. -/
def fetchBatch (feed : List ChangeRecord) (pos maxBatch : Nat) : List ChangeRecord :=
  (feed.filter (fun r => decide (pos < r.seq))).take maxBatch

/-- Modelled from the spec: after a batch is fully processed the marker
advances to the batch's highest `sequenceId` (taking the current position as
the base). -/
def batchMarker (pos : Nat) (batch : List ChangeRecord) : Nat :=
  batch.foldl (fun m r => Nat.max m r.seq) pos

/-- Modelled from the spec: per-record processing inside a batch — a
malformed record is counted and skipped, a candidate is staged (one staging
attempt) and, when staging succeeds, notified exactly once; an irrelevant
record produces no effect. -/
def recEvents (classify : ChangeRecord → Classification)
    (stageOk : ChangeRecord → Bool) (r : ChangeRecord) : List ScanEvent :=
  match classify r with
  | Classification.Irrelevant => []
  | Classification.Malformed => [ScanEvent.unprocRec r]
  | Classification.Candidate =>
      if stageOk r then [ScanEvent.stagedRec r, ScanEvent.notifiedRec r]
      else [ScanEvent.stagedRec r]

/-- Modelled from the spec: processing a whole batch record by record,
without aborting on malformed records or staging failures. -/
def batchEvents (classify : ChangeRecord → Classification)
    (stageOk : ChangeRecord → Bool) : List ChangeRecord → List ScanEvent
  | [] => []
  | r :: rest => recEvents classify stageOk r ++ batchEvents classify stageOk rest

/-- Modelled from the spec: the per-batch counters the scanner emits as
metrics — staging attempts, unprocessable entities, staging failures, and
the records notified. -/
structure BatchOutcome where
  stagingAttempts : Nat
  unprocessable : Nat
  stagingFailures : Nat
  notified : List ChangeRecord
deriving DecidableEq, Repr

/-- Modelled from the spec: the outcome of a single record. -/
def recOutcome (classify : ChangeRecord → Classification)
    (stageOk : ChangeRecord → Bool) (r : ChangeRecord) : BatchOutcome :=
  match classify r with
  | Classification.Irrelevant => ⟨0, 0, 0, []⟩
  | Classification.Malformed => ⟨0, 1, 0, []⟩
  | Classification.Candidate =>
      if stageOk r then ⟨1, 0, 0, [r]⟩ else ⟨1, 0, 1, []⟩

/-- Combining batch outcomes record by record. -/
def BatchOutcome.append (a b : BatchOutcome) : BatchOutcome :=
  ⟨a.stagingAttempts + b.stagingAttempts, a.unprocessable + b.unprocessable,
   a.stagingFailures + b.stagingFailures, a.notified ++ b.notified⟩

/-- Modelled from the spec: the counters produced by processing a batch. -/
def processBatch (classify : ChangeRecord → Classification)
    (stageOk : ChangeRecord → Bool) : List ChangeRecord → BatchOutcome
  | [] => ⟨0, 0, 0, []⟩
  | r :: rest =>
      BatchOutcome.append (recOutcome classify stageOk r)
        (processBatch classify stageOk rest)

/-- Modelled from the spec: the scanner run configuration — the deadline
(total time budget) `deadline`, the safety margin `margin`, and the maximum
batch size. -/
structure ScanConfig where
  deadline : Nat
  margin : Nat
  maxBatch : Nat
deriving DecidableEq, Repr

/-- Modelled from the spec: the Time-Budget Governor — remaining time given
the deadline and the elapsed wall-clock time. -/
def remaining (cfg : ScanConfig) (elapsed : Nat) : Nat :=
  cfg.deadline - elapsed

/-- Modelled from the spec: one scanner run (`run(deadline)`), as the trace
of its observable events paired with the final persisted marker.  Before
fetching each new batch the governor is consulted: if the remaining time is
below the safety margin the scanner persists the current marker and returns
normally.  Otherwise it fetches the next batch after the current position;
an empty batch means the feed is exhausted and the run persists and returns.
A non-empty batch is processed record by record, then the marker is advanced
to the batch's highest `sequenceId` and persisted before the next fetch.
`cost` gives the wall-clock time a batch takes; `fuel` bounds the number of
iterations (the recursion is on `fuel`, which an implementation makes large
enough; exhausting it behaves like a budget stop: persist and return). -/
def scanLoop (classify : ChangeRecord → Classification)
    (stageOk : ChangeRecord → Bool) (feed : List ChangeRecord)
    (cfg : ScanConfig) (cost : List ChangeRecord → Nat) :
    Nat → Nat → Nat → List ScanEvent × Nat
  | 0, _, pos => ([ScanEvent.saved pos], pos)
  | fuel + 1, elapsed, pos =>
      if remaining cfg elapsed < cfg.margin then ([ScanEvent.saved pos], pos)
      else
        let batch := fetchBatch feed pos cfg.maxBatch
        if batch.isEmpty then
          ([ScanEvent.fetched (remaining cfg elapsed) pos, ScanEvent.saved pos], pos)
        else
          let m := batchMarker pos batch
          let tail := scanLoop classify stageOk feed cfg cost fuel
            (elapsed + cost batch) m
          (ScanEvent.fetched (remaining cfg elapsed) pos ::
             (batchEvents classify stageOk batch ++ ScanEvent.saved m :: tail.1),
           tail.2)

/-- Modelled from the spec: a sequence of scanner runs.  Each run is given
its own fuel bound and its own (possibly grown, append-only) view of the
feed, and starts from the marker persisted by the previous run; the traces
are concatenated. -/
def multiRun (classify : ChangeRecord → Classification)
    (stageOk : ChangeRecord → Bool) (cfg : ScanConfig)
    (cost : List ChangeRecord → Nat) :
    List (Nat × List ChangeRecord) → Nat → List ScanEvent
  | [], _ => []
  | (fuel, feed) :: rest, marker =>
      let run := scanLoop classify stageOk feed cfg cost fuel 0 marker
      run.1 ++ multiRun classify stageOk cfg cost rest run.2

/-- The marker of a save event, if the event is one. -/
def saveOf : ScanEvent → Option Nat
  | ScanEvent.saved m => some m
  | _ => none

/-- The record of a staging or notification event, if the event is one. -/
def procOf : ScanEvent → Option ChangeRecord
  | ScanEvent.stagedRec r => some r
  | ScanEvent.notifiedRec r => some r
  | _ => none

/-- The markers persisted along a trace, in order. -/
def savedMarkers (tr : List ScanEvent) : List Nat :=
  tr.filterMap saveOf

/-- The records a trace processes (staged or notified), in order. -/
def procRecords (tr : List ScanEvent) : List ChangeRecord :=
  tr.filterMap procOf

/-- A list of naturals is non-decreasing. -/
def nondecreasing : List Nat → Bool
  | [] => true
  | [_] => true
  | a :: b :: rest => decide (a ≤ b) && nondecreasing (b :: rest)

/-- A list of naturals is non-decreasing and bounded below by `lo`. -/
def monoFrom (lo : Nat) : List Nat → Bool
  | [] => true
  | a :: rest => decide (lo ≤ a) && monoFrom a rest

/-- No reprocessing: after every persisted marker `m` in the trace, every
record later staged or notified has `sequenceId > m`. -/
def noReprocess : List ScanEvent → Bool
  | [] => true
  | ScanEvent.saved m :: rest =>
      (procRecords rest).all (fun r => decide (m < r.seq)) && noReprocess rest
  | _ :: rest => noReprocess rest

/-- Modelled from the spec: the deployed scanner configuration — a deadline
equal to the configured lambda timeout of 15 minutes (index.ts line 53) and a
safety margin of about 2 minutes (the comment at index.ts line 68: the
handler stops processing more batches about 2 minutes ahead of the timeout);
the maximum batch size is an arbitrary representative value. -/
def scannerConfig : ScanConfig :=
  { deadline := discoveryTimeout.totalMinutes, margin := 2, maxBatch := 100 }

/-- Modelled from the spec: the deterministic staging key derived from the
package name and version, under the staged-artifact key-prefix. -/
def stagedKey (name version : String) : String :=
  STAGED_KEY_PFX ++ name ++ "/-/" ++ version ++ ".tgz"

/-- Modelled from the spec: the object store as a list of key-value pairs; a
write overwrites any previous value at the key. -/
def putObject (store : List (String × String)) (k v : String) :
    List (String × String) :=
  (k, v) :: store.filter (fun e => e.1 != k)

/-- Modelled from the spec: the Stager — fetches the artifact for a candidate
and writes it to the object store under the deterministic staging key;
staging fails (`StagingError`) only when the artifact fetch fails, since an
overwrite of an existing key always succeeds. -/
def stage (fetchArtifact : ChangeRecord → Option String)
    (store : List (String × String)) (c : ChangeRecord) :
    Except String (String × List (String × String)) :=
  match fetchArtifact c with
  | none => Except.error "StagingError"
  | some a =>
      Except.ok (stagedKey c.name c.version,
        putObject store (stagedKey c.name c.version) a)

/-- A sample relevance classifier used to witness the scanner theorems. -/
def sampleClassify (_r : ChangeRecord) : Classification :=
  Classification.Candidate

/-- A sample staging oracle used to witness the scanner theorems. -/
def sampleStageOk (_r : ChangeRecord) : Bool := true

/-- A sample feed used to witness the scanner theorems. -/
def sampleFeed : List ChangeRecord :=
  [{ seq := 1, name := "pkg", version := "1.0.0" },
   { seq := 2, name := "pkg", version := "1.0.1" }]

/-- A sample batch-cost function used to witness the scanner theorems. -/
def sampleCost (_b : List ChangeRecord) : Nat := 5

/-- A sample artifact fetcher used to witness the stager theorem. -/
def sampleFetchArtifact (_c : ChangeRecord) : Option String := some "tarball"

/-- A sample candidate record used to witness the stager theorem. -/
def sampleCandidate : ChangeRecord :=
  { seq := 5, name := "pkg", version := "1.0.0" }

/-- The override behavior of a `Discovery`-style metric accessor
(`new Metric({ <defaults>, ...opts })`): every field, `metricName` and the
namespace included, is the caller's when provided and the accessor's default
otherwise. -/
def OverridableAccessor (acc : MetricOptions → CWMetric) (name : String)
    (stat : Statistic) : Prop :=
  ∀ opts, acc opts =
    { metricName := opts.metricName.getD name
    , nmspace := opts.nmspace.getD METRIC_NAMESPACE
    , period := opts.period.getD discoveryTimeout
    , statistic := opts.statistic.getD stat }

/-- The override behavior of an `NpmJsPackageCanary` metric accessor
(`new Metric({ <defaults>, ...opts, metricName, namespace })`): `metricName`
and the namespace are the construct's own values regardless of the caller's
options, while period and statistic are overridable. -/
def FixedNameAccessor (acc : MetricOptions → CWMetric) (name : String)
    (stat : Statistic) : Prop :=
  ∀ opts, acc opts =
    { metricName := name
    , nmspace := METRICS_NAMESPACE
    , period := opts.period.getD (Duration.minutes 1)
    , statistic := opts.statistic.getD stat }

theorem savedMarkers_append (l1 l2 : List ScanEvent) :
    savedMarkers (l1 ++ l2) = savedMarkers l1 ++ savedMarkers l2 := by
  simp [savedMarkers, List.filterMap_append]

theorem procRecords_append (l1 l2 : List ScanEvent) :
    procRecords (l1 ++ l2) = procRecords l1 ++ procRecords l2 := by
  simp [procRecords, List.filterMap_append]

theorem savedMarkers_recEvents (c : ChangeRecord → Classification)
    (s : ChangeRecord → Bool) (r : ChangeRecord) :
    savedMarkers (recEvents c s r) = [] := by
  unfold recEvents
  cases c r with
  | Irrelevant => rfl
  | Malformed => rfl
  | Candidate => cases s r <;> rfl

theorem savedMarkers_batchEvents (c : ChangeRecord → Classification)
    (s : ChangeRecord → Bool) (batch : List ChangeRecord) :
    savedMarkers (batchEvents c s batch) = [] := by
  induction batch with
  | nil => rfl
  | cons r rest ih =>
      simp [batchEvents, savedMarkers_append, savedMarkers_recEvents, ih]

theorem procRecords_recEvents (c : ChangeRecord → Classification)
    (s : ChangeRecord → Bool) (r x : ChangeRecord) :
    x ∈ procRecords (recEvents c s r) → x = r := by
  unfold recEvents
  cases c r with
  | Irrelevant => intro h; simp [procRecords, procOf] at h
  | Malformed => intro h; simp [procRecords, procOf, List.filterMap] at h
  | Candidate =>
      cases s r <;> intro h <;>
        simp [procRecords, procOf, List.filterMap] at h <;> tauto

theorem procRecords_batchEvents (c : ChangeRecord → Classification)
    (s : ChangeRecord → Bool) (batch : List ChangeRecord) (x : ChangeRecord) :
    x ∈ procRecords (batchEvents c s batch) → x ∈ batch := by
  induction batch with
  | nil => intro h; simp [batchEvents, procRecords] at h
  | cons r rest ih =>
      intro h
      rw [batchEvents, procRecords_append] at h
      rcases List.mem_append.mp h with h1 | h2
      · exact (procRecords_recEvents c s r x h1) ▸ List.mem_cons_self r rest
      · exact List.mem_cons_of_mem r (ih h2)

theorem seq_gt_of_mem_fetchBatch {feed : List ChangeRecord} {pos maxB : Nat}
    {r : ChangeRecord} (h : r ∈ fetchBatch feed pos maxB) : pos < r.seq := by
  unfold fetchBatch at h
  have h1 := List.take_subset _ _ h
  rw [List.mem_filter] at h1
  exact of_decide_eq_true h1.2

theorem le_batchMarker : ∀ (batch : List ChangeRecord) (pos : Nat),
    pos ≤ batchMarker pos batch
  | [], pos => Nat.le_refl pos
  | r :: rest, pos =>
      Nat.le_trans (Nat.le_max_left pos r.seq)
        (le_batchMarker rest (Nat.max pos r.seq))

theorem seq_le_batchMarker : ∀ (batch : List ChangeRecord) (pos : Nat)
    (r : ChangeRecord), r ∈ batch → r.seq ≤ batchMarker pos batch := by
  intro batch
  induction batch with
  | nil => intro pos r h; cases h
  | cons a rest ih =>
      intro pos r h
      rcases List.mem_cons.mp h with h1 | h2
      · subst h1
        exact Nat.le_trans (Nat.le_max_right pos r.seq)
          (le_batchMarker rest (Nat.max pos r.seq))
      · exact ih (Nat.max pos a.seq) r h2

theorem monoFrom_le {lo lo' : Nat} {l : List Nat} (h : lo' ≤ lo)
    (hm : monoFrom lo l = true) : monoFrom lo' l = true := by
  cases l with
  | nil => rfl
  | cons a t =>
      simp only [monoFrom, Bool.and_eq_true, decide_eq_true_eq] at hm ⊢
      exact ⟨Nat.le_trans h hm.1, hm.2⟩

theorem monoFrom_last {lo mid : Nat} : ∀ {l : List Nat},
    monoFrom lo (l ++ [mid]) = true → lo ≤ mid
  | [], h => by simpa [monoFrom] using h
  | a :: t, h => by
      simp only [List.cons_append, monoFrom, Bool.and_eq_true,
        decide_eq_true_eq] at h
      exact Nat.le_trans h.1 (monoFrom_last h.2)

theorem monoFrom_glue {mid : Nat} {l2 : List Nat}
    (h2 : monoFrom mid l2 = true) : ∀ {lo : Nat} {l1 : List Nat},
    monoFrom lo (l1 ++ [mid]) = true → monoFrom lo (l1 ++ l2) = true
  | lo, [], h1 => by
      simp only [List.nil_append, monoFrom, Bool.and_eq_true,
        decide_eq_true_eq, and_true] at h1
      simpa using monoFrom_le h1 h2
  | lo, a :: t, h1 => by
      simp only [List.cons_append, monoFrom, Bool.and_eq_true,
        decide_eq_true_eq] at h1 ⊢
      exact ⟨h1.1, monoFrom_glue h2 h1.2⟩

theorem monoFrom_mem_le {mid : Nat} : ∀ {lo x : Nat} {l1 : List Nat},
    monoFrom lo (l1 ++ [mid]) = true → x ∈ l1 → x ≤ mid
  | lo, x, [], _, hx => by cases hx
  | lo, x, a :: t, h, hx => by
      simp only [List.cons_append, monoFrom, Bool.and_eq_true,
        decide_eq_true_eq] at h
      rcases List.mem_cons.mp hx with h1 | h2
      · exact h1 ▸ monoFrom_last h.2
      · exact monoFrom_mem_le h.2 h2

theorem nondecreasing_eq_monoFrom : ∀ (lo : Nat) (l : List Nat),
    nondecreasing (lo :: l) = monoFrom lo l
  | _, [] => rfl
  | lo, a :: t => by
      simp [nondecreasing, monoFrom, nondecreasing_eq_monoFrom a t]

theorem scanLoop_trace_ne_nil (c : ChangeRecord → Classification)
    (s : ChangeRecord → Bool) (feed : List ChangeRecord) (cfg : ScanConfig)
    (cost : List ChangeRecord → Nat) :
    ∀ (fuel elapsed pos : Nat), (scanLoop c s feed cfg cost fuel elapsed pos).1 ≠ [] := by
  intro fuel
  induction fuel with
  | zero => intro e pos; simp [scanLoop]
  | succ n ih =>
      intro e pos
      simp only [scanLoop]
      by_cases hb : remaining cfg e < cfg.margin
      · simp [hb]
      · simp only [hb, if_false]
        by_cases hemp : (fetchBatch feed pos cfg.maxBatch).isEmpty
        · simp [hemp]
        · simp [hemp]

theorem getLast?_cons_append_cons {α : Type} (a b : α) (l t : List α)
    (h : t ≠ []) : (a :: (l ++ b :: t)).getLast? = t.getLast? := by
  rw [show a :: (l ++ b :: t) = (a :: l) ++ b :: t from rfl,
    List.getLast?_append_cons]
  obtain ⟨x, xs, rfl⟩ := List.exists_cons_of_ne_nil h
  exact List.getLast?_cons_cons

theorem scanLoop_getLast (c : ChangeRecord → Classification)
    (s : ChangeRecord → Bool) (feed : List ChangeRecord) (cfg : ScanConfig)
    (cost : List ChangeRecord → Nat) :
    ∀ (fuel elapsed pos : Nat),
      ((scanLoop c s feed cfg cost fuel elapsed pos).1).getLast? =
        some (ScanEvent.saved (scanLoop c s feed cfg cost fuel elapsed pos).2) := by
  intro fuel
  induction fuel with
  | zero => intro e pos; simp [scanLoop]
  | succ n ih =>
      intro e pos
      simp only [scanLoop]
      by_cases hb : remaining cfg e < cfg.margin
      · simp [hb]
      · simp only [hb, if_false]
        by_cases hemp : (fetchBatch feed pos cfg.maxBatch).isEmpty
        · simp [hemp]
        · simp only [hemp, Bool.false_eq_true, if_false]
          exact (getLast?_cons_append_cons _ _ _ _
            (scanLoop_trace_ne_nil c s feed cfg cost n _ _)).trans (ih _ _)

theorem fetched_notin_recEvents (c : ChangeRecord → Classification)
    (s : ChangeRecord → Bool) (r : ChangeRecord) (rem p : Nat) :
    ScanEvent.fetched rem p ∉ recEvents c s r := by
  unfold recEvents
  cases c r with
  | Irrelevant => simp
  | Malformed => simp
  | Candidate => cases s r <;> simp

theorem fetched_notin_batchEvents (c : ChangeRecord → Classification)
    (s : ChangeRecord → Bool) (batch : List ChangeRecord) (rem p : Nat) :
    ScanEvent.fetched rem p ∉ batchEvents c s batch := by
  induction batch with
  | nil => simp [batchEvents]
  | cons r rest ih =>
      rw [batchEvents]
      intro h
      rcases List.mem_append.mp h with h1 | h2
      · exact fetched_notin_recEvents c s r rem p h1
      · exact ih h2

theorem scanLoop_fetch_guard (c : ChangeRecord → Classification)
    (s : ChangeRecord → Bool) (feed : List ChangeRecord) (cfg : ScanConfig)
    (cost : List ChangeRecord → Nat) :
    ∀ (fuel elapsed pos rem p : Nat),
      ScanEvent.fetched rem p ∈ (scanLoop c s feed cfg cost fuel elapsed pos).1 →
        cfg.margin ≤ rem := by
  intro fuel
  induction fuel with
  | zero => intro e pos rem p h; simp [scanLoop] at h
  | succ n ih =>
      intro e pos rem p h
      simp only [scanLoop] at h
      by_cases hb : remaining cfg e < cfg.margin
      · simp [hb] at h
      · simp only [hb, if_false] at h
        by_cases hemp : (fetchBatch feed pos cfg.maxBatch).isEmpty
        · simp [hemp] at h
          omega
        · simp only [hemp, Bool.false_eq_true, if_false] at h
          rcases List.mem_cons.mp h with h1 | h2
          · cases h1; exact Nat.le_of_not_lt hb
          · rcases List.mem_append.mp h2 with h3 | h4
            · exact absurd h3 (fetched_notin_batchEvents c s _ rem p)
            · rcases List.mem_cons.mp h4 with h5 | h6
              · cases h5
              · exact ih _ _ rem p h6

theorem savedMarkers_cons_fetched (rem p : Nat) (l : List ScanEvent) :
    savedMarkers (ScanEvent.fetched rem p :: l) = savedMarkers l := by
  simp [savedMarkers, saveOf]

theorem savedMarkers_cons_saved (m : Nat) (l : List ScanEvent) :
    savedMarkers (ScanEvent.saved m :: l) = m :: savedMarkers l := by
  simp [savedMarkers, saveOf]

theorem procRecords_cons_fetched (rem p : Nat) (l : List ScanEvent) :
    procRecords (ScanEvent.fetched rem p :: l) = procRecords l := by
  simp [procRecords, procOf]

theorem procRecords_cons_saved (m : Nat) (l : List ScanEvent) :
    procRecords (ScanEvent.saved m :: l) = procRecords l := by
  simp [procRecords, procOf]

theorem scanLoop_saves_mono (c : ChangeRecord → Classification)
    (s : ChangeRecord → Bool) (feed : List ChangeRecord) (cfg : ScanConfig)
    (cost : List ChangeRecord → Nat) :
    ∀ (fuel elapsed pos : Nat),
      monoFrom pos (savedMarkers (scanLoop c s feed cfg cost fuel elapsed pos).1 ++
        [(scanLoop c s feed cfg cost fuel elapsed pos).2]) = true := by
  intro fuel
  induction fuel with
  | zero => intro e pos; simp [scanLoop, savedMarkers, saveOf, monoFrom]
  | succ n ih =>
      intro e pos
      simp only [scanLoop]
      by_cases hb : remaining cfg e < cfg.margin
      · simp [hb, savedMarkers, saveOf, monoFrom]
      · simp only [hb, if_false]
        by_cases hemp : (fetchBatch feed pos cfg.maxBatch).isEmpty
        · simp [hemp, savedMarkers, saveOf, monoFrom]
        · simp only [hemp, Bool.false_eq_true, if_false]
          rw [savedMarkers_cons_fetched, savedMarkers_append,
            savedMarkers_batchEvents, savedMarkers_cons_saved]
          simp only [List.nil_append, List.cons_append, monoFrom,
            Bool.and_eq_true, decide_eq_true_eq]
          exact ⟨le_batchMarker _ _, ih _ _⟩

theorem scanLoop_procs_gt (c : ChangeRecord → Classification)
    (s : ChangeRecord → Bool) (feed : List ChangeRecord) (cfg : ScanConfig)
    (cost : List ChangeRecord → Nat) :
    ∀ (fuel elapsed pos : Nat) (r : ChangeRecord),
      r ∈ procRecords (scanLoop c s feed cfg cost fuel elapsed pos).1 →
        pos < r.seq := by
  intro fuel
  induction fuel with
  | zero => intro e pos r h; simp [scanLoop, procRecords, procOf] at h
  | succ n ih =>
      intro e pos r h
      simp only [scanLoop] at h
      by_cases hb : remaining cfg e < cfg.margin
      · simp [hb, procRecords, procOf] at h
      · simp only [hb, if_false] at h
        by_cases hemp : (fetchBatch feed pos cfg.maxBatch).isEmpty
        · simp [hemp, procRecords, procOf] at h
        · simp only [hemp, Bool.false_eq_true, if_false] at h
          rw [procRecords_cons_fetched, procRecords_append,
            procRecords_cons_saved] at h
          rcases List.mem_append.mp h with h1 | h2
          · exact seq_gt_of_mem_fetchBatch
              (procRecords_batchEvents c s _ r h1)
          · exact Nat.lt_of_le_of_lt (le_batchMarker _ _) (ih _ _ r h2)

theorem noReprocess_batchEvents_append (c : ChangeRecord → Classification)
    (s : ChangeRecord → Bool) (batch : List ChangeRecord) (l : List ScanEvent) :
    noReprocess (batchEvents c s batch ++ l) = noReprocess l := by
  induction batch with
  | nil => simp [batchEvents]
  | cons r rest ih =>
      rw [batchEvents, List.append_assoc]
      unfold recEvents
      cases c r with
      | Irrelevant => simpa using ih
      | Malformed => simpa [noReprocess] using ih
      | Candidate => cases s r <;> simpa [noReprocess] using ih

theorem noReprocess_glue {l1 l2 : List ScanEvent} (h1 : noReprocess l1 = true)
    (h2 : noReprocess l2 = true)
    (h3 : ∀ m ∈ savedMarkers l1, ∀ r ∈ procRecords l2, m < r.seq) :
    noReprocess (l1 ++ l2) = true := by
  induction l1 with
  | nil => simpa using h2
  | cons ev t ih =>
      cases ev with
      | saved m =>
          rw [savedMarkers_cons_saved] at h3
          simp only [noReprocess, Bool.and_eq_true, List.all_eq_true,
            decide_eq_true_eq] at h1
          rw [List.cons_append]
          simp only [noReprocess, Bool.and_eq_true, List.all_eq_true,
            decide_eq_true_eq]
          constructor
          · intro r hr
            rw [procRecords_append] at hr
            rcases List.mem_append.mp hr with ha | hb
            · exact h1.1 r ha
            · exact h3 m (List.mem_cons_self m _) r hb
          · exact ih h1.2 (fun m' hm' => h3 m' (List.mem_cons_of_mem m hm'))
      | fetched rem p =>
          rw [savedMarkers_cons_fetched] at h3
          rw [List.cons_append]
          simp only [noReprocess] at h1 ⊢
          exact ih h1 h3
      | stagedRec r =>
          rw [List.cons_append]
          simp only [noReprocess] at h1 ⊢
          refine ih h1 (fun m' hm' => ?_)
          exact h3 m' (by simpa [savedMarkers, saveOf] using hm')
      | notifiedRec r =>
          rw [List.cons_append]
          simp only [noReprocess] at h1 ⊢
          refine ih h1 (fun m' hm' => ?_)
          exact h3 m' (by simpa [savedMarkers, saveOf] using hm')
      | unprocRec r =>
          rw [List.cons_append]
          simp only [noReprocess] at h1 ⊢
          refine ih h1 (fun m' hm' => ?_)
          exact h3 m' (by simpa [savedMarkers, saveOf] using hm')

theorem scanLoop_noReprocess (c : ChangeRecord → Classification)
    (s : ChangeRecord → Bool) (feed : List ChangeRecord) (cfg : ScanConfig)
    (cost : List ChangeRecord → Nat) :
    ∀ (fuel elapsed pos : Nat),
      noReprocess (scanLoop c s feed cfg cost fuel elapsed pos).1 = true := by
  intro fuel
  induction fuel with
  | zero => intro e pos; simp [scanLoop, noReprocess, procRecords]
  | succ n ih =>
      intro e pos
      simp only [scanLoop]
      by_cases hb : remaining cfg e < cfg.margin
      · simp [hb, noReprocess, procRecords]
      · simp only [hb, if_false]
        by_cases hemp : (fetchBatch feed pos cfg.maxBatch).isEmpty
        · simp [hemp, noReprocess, procRecords]
        · simp only [hemp, Bool.false_eq_true, if_false]
          rw [show ScanEvent.fetched (remaining cfg e) pos ::
              (batchEvents c s (fetchBatch feed pos cfg.maxBatch) ++
                ScanEvent.saved (batchMarker pos (fetchBatch feed pos cfg.maxBatch)) ::
                  (scanLoop c s feed cfg cost n
                    (e + cost (fetchBatch feed pos cfg.maxBatch))
                    (batchMarker pos (fetchBatch feed pos cfg.maxBatch))).1) =
              ScanEvent.fetched (remaining cfg e) pos ::
              (batchEvents c s (fetchBatch feed pos cfg.maxBatch) ++
                (ScanEvent.saved (batchMarker pos (fetchBatch feed pos cfg.maxBatch)) ::
                  (scanLoop c s feed cfg cost n
                    (e + cost (fetchBatch feed pos cfg.maxBatch))
                    (batchMarker pos (fetchBatch feed pos cfg.maxBatch))).1)) from rfl]
          show noReprocess (batchEvents c s (fetchBatch feed pos cfg.maxBatch) ++
            (ScanEvent.saved (batchMarker pos (fetchBatch feed pos cfg.maxBatch)) ::
              (scanLoop c s feed cfg cost n
                (e + cost (fetchBatch feed pos cfg.maxBatch))
                (batchMarker pos (fetchBatch feed pos cfg.maxBatch))).1)) = true
          rw [noReprocess_batchEvents_append]
          simp only [noReprocess, Bool.and_eq_true, List.all_eq_true,
            decide_eq_true_eq]
          exact ⟨fun r hr => scanLoop_procs_gt c s feed cfg cost n _ _ r hr,
            ih _ _⟩

theorem multiRun_saves_mono (c : ChangeRecord → Classification)
    (s : ChangeRecord → Bool) (cfg : ScanConfig)
    (cost : List ChangeRecord → Nat) :
    ∀ (runs : List (Nat × List ChangeRecord)) (m : Nat),
      monoFrom m (savedMarkers (multiRun c s cfg cost runs m)) = true := by
  intro runs
  induction runs with
  | nil => intro m; rfl
  | cons p rest ih =>
      intro m
      rw [multiRun, savedMarkers_append]
      exact monoFrom_glue (ih _) (scanLoop_saves_mono c s p.2 cfg cost p.1 0 m)

theorem multiRun_procs_gt (c : ChangeRecord → Classification)
    (s : ChangeRecord → Bool) (cfg : ScanConfig)
    (cost : List ChangeRecord → Nat) :
    ∀ (runs : List (Nat × List ChangeRecord)) (m : Nat) (r : ChangeRecord),
      r ∈ procRecords (multiRun c s cfg cost runs m) → m < r.seq := by
  intro runs
  induction runs with
  | nil => intro m r h; simp [multiRun, procRecords] at h
  | cons p rest ih =>
      intro m r h
      rw [multiRun, procRecords_append] at h
      rcases List.mem_append.mp h with h1 | h2
      · exact scanLoop_procs_gt c s p.2 cfg cost p.1 0 m r h1
      · have hle : m ≤ (scanLoop c s p.2 cfg cost p.1 0 m).2 :=
          monoFrom_last (scanLoop_saves_mono c s p.2 cfg cost p.1 0 m)
        exact Nat.lt_of_le_of_lt hle (ih _ r h2)

theorem multiRun_noReprocess (c : ChangeRecord → Classification)
    (s : ChangeRecord → Bool) (cfg : ScanConfig)
    (cost : List ChangeRecord → Nat) :
    ∀ (runs : List (Nat × List ChangeRecord)) (m : Nat),
      noReprocess (multiRun c s cfg cost runs m) = true := by
  intro runs
  induction runs with
  | nil => intro m; rfl
  | cons p rest ih =>
      intro m
      rw [multiRun]
      refine noReprocess_glue (scanLoop_noReprocess c s p.2 cfg cost p.1 0 m)
        (ih _) (fun mk hmk r hr => ?_)
      have h1 : mk ≤ (scanLoop c s p.2 cfg cost p.1 0 m).2 :=
        monoFrom_mem_le (scanLoop_saves_mono c s p.2 cfg cost p.1 0 m) hmk
      exact Nat.lt_of_le_of_lt h1 (multiRun_procs_gt c s cfg cost rest _ r hr)

/-- Claim C1: for every sequence of Scanner runs (each run with its own fuel
bound and its own append-only view of the feed, starting from the marker the
previous run persisted), the markers persisted by the Checkpoint Store are
non-decreasing starting from the initial marker, and no change record whose
`sequenceId` is less than or equal to a persisted marker is ever processed
again (staged or notified) later in that run or in any later run. -/
theorem checkpoint_marker_monotone_no_reprocess
    (classify : ChangeRecord → Classification) (stageOk : ChangeRecord → Bool)
    (cfg : ScanConfig) (cost : List ChangeRecord → Nat)
    (runs : List (Nat × List ChangeRecord)) (m0 : Nat) :
    nondecreasing
      (m0 :: savedMarkers (multiRun classify stageOk cfg cost runs m0)) = true ∧
    noReprocess (multiRun classify stageOk cfg cost runs m0) = true :=
  ⟨(nondecreasing_eq_monoFrom m0 _).trans
      (multiRun_saves_mono classify stageOk cfg cost runs m0),
   multiRun_noReprocess classify stageOk cfg cost runs m0⟩

/-- Claim C2: for every Scanner run with deadline `cfg.deadline` and safety
margin `cfg.margin`, the Scanner never initiates a batch fetch at a point
where the Time-Budget Governor's remaining time is below the margin, and the
last event of every run is the persistence of the final marker — the marker
of the last fully committed batch; the deployed configuration has a deadline
equal to the configured 15-minute timeout and a safety margin of 2 minutes. -/
theorem scanner_budget_respected
    (classify : ChangeRecord → Classification) (stageOk : ChangeRecord → Bool)
    (feed : List ChangeRecord) (cfg : ScanConfig)
    (cost : List ChangeRecord → Nat) (fuel elapsed pos : Nat) :
    (∀ rem p,
      ScanEvent.fetched rem p ∈
          (scanLoop classify stageOk feed cfg cost fuel elapsed pos).1 →
        cfg.margin ≤ rem) ∧
    ((scanLoop classify stageOk feed cfg cost fuel elapsed pos).1).getLast? =
      some (ScanEvent.saved
        (scanLoop classify stageOk feed cfg cost fuel elapsed pos).2) ∧
    scannerConfig.deadline = discoveryTimeout.totalMinutes ∧
    scannerConfig.margin = 2 :=
  ⟨fun rem p h =>
      scanLoop_fetch_guard classify stageOk feed cfg cost fuel elapsed pos rem p h,
   scanLoop_getLast classify stageOk feed cfg cost fuel elapsed pos, rfl, rfl⟩

/-- Witness for the budget theorem at a concrete run in which a batch fetch
actually occurs. -/
theorem scanner_budget_respected_check : scannerConfig.margin ≤ 15 :=
  (scanner_budget_respected sampleClassify sampleStageOk sampleFeed
    scannerConfig sampleCost 3 0 0).1 15 0 (by decide)

/-- Claim C3: the `Discovery` construct configures the Scanner lambda with a
reserved concurrency of exactly 1 for every instantiation, and under the
reserved-concurrency semantics the number of in-flight Scanner executions
never exceeds 1, so the checkpoint object and the staging-key namespace
never see concurrent writers. -/
theorem discovery_reserved_concurrency_single_writer :
    (∀ props, (discoveryConstruct props).handlerProps.reservedConcurrentExecutions =
      some 1) ∧
    ∀ props (inflight : Nat → Nat),
      RespectsReservedConcurrency (discoveryConstruct props).handlerProps inflight →
      ∀ t, inflight t ≤ 1 :=
  ⟨fun _ => rfl, fun _ _ h t => h t⟩

/-- Witness for the reserved-concurrency theorem at a concrete in-flight
count. -/
theorem discovery_reserved_concurrency_single_writer_check :
    (fun _ : Nat => 1) 0 ≤ 1 :=
  discovery_reserved_concurrency_single_writer.2 ⟨"queue-url", none⟩
    (fun _ => 1) (fun _ => Nat.le_refl 1) 0

/-- Claim C4: the schedule rule invokes the Scanner at a fixed period equal
to the Scanner's configured timeout, which is 15 minutes, and the canary
schedule rule uses a strictly shorter fixed period of 1 minute. -/
theorem scheduler_periods_discovery_canary :
    (∀ props, (discoveryConstruct props).scheduleRate =
      (discoveryConstruct props).handlerProps.timeout) ∧
    (∀ props, (discoveryConstruct props).scheduleRate = Duration.minutes 15) ∧
    (∀ props, (canaryConstruct props).scheduleRate = Duration.minutes 1) ∧
    ∀ dp cp, (canaryConstruct cp).scheduleRate.totalMinutes <
      (discoveryConstruct dp).scheduleRate.totalMinutes :=
  ⟨fun _ => rfl, fun _ => rfl, fun _ => rfl,
   fun _ _ => by show (1 : Nat) < 15; decide⟩

/-- Claim C5: under the staging bucket's lifecycle configuration, an object
key under the staged-artifact key-prefix expires after exactly 30 days, and
a key outside that prefix is subject to no expiration rule. -/
theorem staging_bucket_lifecycle_expiration (props : DiscoveryProps)
    (key : String) :
    expirationFor (discoveryConstruct props).bucketProps key =
      if STAGED_KEY_PFX.isPrefixOf key then some (Duration.days 30) else none := by
  by_cases h : STAGED_KEY_PFX.isPrefixOf key <;>
    simp [expirationFor, discoveryConstruct, LifecycleRule.appliesTo,
      List.find?, h]

/-- Claim C6: processing a batch performs exactly one staging attempt per
record the filter classifies as a candidate and increments the
unprocessable-entity counter exactly once per record classified as
malformed, processing the whole batch without aborting. -/
theorem malformed_record_isolation_counts
    (classify : ChangeRecord → Classification) (stageOk : ChangeRecord → Bool)
    (batch : List ChangeRecord) :
    (processBatch classify stageOk batch).stagingAttempts =
      batch.countP (fun r => decide (classify r = Classification.Candidate)) ∧
    (processBatch classify stageOk batch).unprocessable =
      batch.countP (fun r => decide (classify r = Classification.Malformed)) := by
  induction batch with
  | nil => exact ⟨rfl, rfl⟩
  | cons r rest ih =>
      simp only [processBatch, BatchOutcome.append, List.countP_cons]
      cases h : classify r with
      | Irrelevant => simp [recOutcome, h, ih.1, ih.2]
      | Malformed => simp [recOutcome, h, ih.1, ih.2, Nat.add_comm]
      | Candidate =>
          cases hs : stageOk r <;>
            simp [recOutcome, h, hs, ih.1, ih.2, Nat.add_comm]

/-- Claim C7: staging is idempotent — when the artifact fetch succeeds,
staging writes under the deterministic key derived from the package name and
version, and staging the same version a second time (from the store produced
by the first staging) succeeds and writes to the same key, leaving the store
unchanged. -/
theorem staging_idempotent_deterministic_key
    (fetchArtifact : ChangeRecord → Option String)
    (store : List (String × String)) (c : ChangeRecord) (a : String)
    (h : fetchArtifact c = some a) :
    stage fetchArtifact store c =
      Except.ok (stagedKey c.name c.version,
        putObject store (stagedKey c.name c.version) a) ∧
    stage fetchArtifact (putObject store (stagedKey c.name c.version) a) c =
      Except.ok (stagedKey c.name c.version,
        putObject store (stagedKey c.name c.version) a) := by
  constructor
  · simp [stage, h]
  · simp [stage, h, putObject, List.filter_filter]

/-- Witness for the staging-idempotence theorem at a concrete candidate and
artifact. -/
theorem staging_idempotent_deterministic_key_check :
    stage sampleFetchArtifact [] sampleCandidate =
      Except.ok (stagedKey sampleCandidate.name sampleCandidate.version,
        putObject [] (stagedKey sampleCandidate.name sampleCandidate.version)
          "tarball") :=
  (staging_idempotent_deterministic_key sampleFetchArtifact []
    sampleCandidate "tarball" rfl).1

/-- Claim C8: the errors alarm evaluates the error metric over a single
15-minute period and fires exactly when the datapoint is at least 1; the
no-invocations alarm evaluates the invocation metric over a single 15-minute
period and fires exactly when the datapoint is less than 1. -/
theorem discovery_alarm_thresholds (props : DiscoveryProps) :
    (discoveryConstruct props).alarmErrors.metricPeriod = Duration.minutes 15 ∧
    (discoveryConstruct props).alarmErrors.evaluationPeriods = 1 ∧
    (∀ v, (discoveryConstruct props).alarmErrors.firesOn v = decide (1 ≤ v)) ∧
    (discoveryConstruct props).alarmNoInvocations.metricPeriod =
      Duration.minutes 15 ∧
    (discoveryConstruct props).alarmNoInvocations.evaluationPeriods = 1 ∧
    ∀ v, (discoveryConstruct props).alarmNoInvocations.firesOn v =
      decide (v < 1) :=
  ⟨rfl, rfl, fun _ => rfl, rfl, rfl, fun _ => rfl⟩

/-- Claim C9: for every instantiation of the `Discovery` construct, the
staging bucket is created with all public access blocked
(`BlockPublicAccess.BLOCK_ALL`). -/
theorem staging_bucket_blocks_public_access (props : DiscoveryProps) :
    (discoveryConstruct props).bucketProps.blockPublicAccess =
      some BlockPublicAccess.BLOCK_ALL := rfl

/-- Claim C10: every `Discovery` metric accessor spreads the caller's
options after its defaults, so the caller can override every field,
`metricName` and the namespace included; every `NpmJsPackageCanary` metric
accessor defined in the construct spreads the options before fixing
`metricName` and the namespace, so those two fields are always the
construct's own values regardless of the options. -/
theorem metric_accessor_override_semantics :
    OverridableAccessor Discovery.metricBatchProcessingTime
      MetricName.BATCH_PROCESSING_TIME Statistic.AVERAGE ∧
    OverridableAccessor Discovery.metricChangeCount
      MetricName.CHANGE_COUNT Statistic.SUM ∧
    OverridableAccessor Discovery.metricPackageVersionAge
      MetricName.PACKAGE_VERSION_AGE Statistic.MAXIMUM ∧
    OverridableAccessor Discovery.metricPackageVersionCount
      MetricName.PACKAGE_VERSION_COUNT Statistic.SUM ∧
    OverridableAccessor Discovery.metricRelevantPackageVersions
      MetricName.RELEVANT_PACKAGE_VERSIONS Statistic.SUM ∧
    OverridableAccessor Discovery.metricRemainingTime
      MetricName.REMAINING_TIME Statistic.AVERAGE ∧
    OverridableAccessor Discovery.metricStagingFailureCount
      MetricName.STAGING_FAILURE_COUNT Statistic.SUM ∧
    OverridableAccessor Discovery.metricStagingTime
      MetricName.STAGING_TIME Statistic.AVERAGE ∧
    OverridableAccessor Discovery.metricUnprocessableEntity
      MetricName.UNPROCESSABLE_ENTITY Statistic.SUM ∧
    FixedNameAccessor NpmJsPackageCanary.metricDwellTime
      CanaryMetricName.DWELL_TIME Statistic.MAXIMUM ∧
    FixedNameAccessor NpmJsPackageCanary.metricTimeToCatalog
      CanaryMetricName.TIME_TO_CATALOG Statistic.MAXIMUM ∧
    FixedNameAccessor NpmJsPackageCanary.metricTrackedVersionCount
      CanaryMetricName.TRACKED_VERSION_COUNT Statistic.MAXIMUM ∧
    FixedNameAccessor NpmJsPackageCanary.metricEstimatedNpmReplicaLag
      CanaryMetricName.NPM_REPLICA_LAG Statistic.MAXIMUM ∧
    (Discovery.metricBatchProcessingTime
      { metricName := some "Custom", nmspace := some "Custom/NS" }).metricName =
      "Custom" ∧
    (NpmJsPackageCanary.metricDwellTime
      { metricName := some "Custom", nmspace := some "Custom/NS" }).metricName =
      CanaryMetricName.DWELL_TIME :=
  ⟨fun _ => rfl, fun _ => rfl, fun _ => rfl, fun _ => rfl, fun _ => rfl,
   fun _ => rfl, fun _ => rfl, fun _ => rfl, fun _ => rfl, fun _ => rfl,
   fun _ => rfl, fun _ => rfl, fun _ => rfl, rfl, rfl⟩
